import Mathlib

/-!
Verification development for the real-time audio streaming core of the
Anfamita repository (LiveProfessor component and the gemini service).

The definitions below are a shallow embedding of the TypeScript source:
audio samples are modelled as rationals (every IEEE float the code can
hold is a rational, and the only arithmetic the code performs on samples
is multiplication and division by the power of two 32768, which is exact
on floats in the relevant range), machine integer conversion is modelled
with explicit truncation and wrapping modulo 2^16 exactly as JavaScript's
ToInt16 specifies, byte strings are lists of naturals below 256, and the
browser's btoa/atob pair is modelled as standard padded base64 over the
standard alphabet (the only inputs the claims exercise are canonical).
-/

namespace Anfamita

/-- JavaScript ToIntegerOrInfinity on a finite value: truncation toward
zero (floor for nonnegative values, ceiling for negative ones). -/
def truncRat (q : ℚ) : ℤ :=
  if 0 ≤ q then ⌊q⌋ else ⌈q⌉

/-- Wrap an integer into the signed 16-bit range, as the final step of
JavaScript's ToInt16: reduce modulo 2^16 into [0, 65536), then shift the
upper half down by 65536. -/
def wrap16 (i : ℤ) : ℤ :=
  let m := i % 65536
  if m < 32768 then m else m - 65536

/-- JavaScript ToInt16 of a (finite) numeric value, as performed by the
assignment `int16[i] = data[i] * 32768` in `createBlob`
(src/unnamed/part_000, line 31): truncate toward zero, then wrap. -/
def toInt16 (q : ℚ) : ℤ :=
  wrap16 (truncRat q)

/-- The two bytes of a signed 16-bit value in little-endian order, as
exposed by `new Uint8Array(int16.buffer)` in `createBlob`. -/
def int16ToBytesLE (i : ℤ) : List ℕ :=
  let u := (i % 65536).toNat
  [u % 256, u / 256]

/-- Reassemble a signed 16-bit value from two little-endian bytes, as
performed by `new Int16Array(bytes.buffer)` in `decodeAudioData`. -/
def bytesLEToInt16 (b0 b1 : ℕ) : ℤ :=
  let u := b0 + 256 * b1
  if u < 32768 then (u : ℤ) else (u : ℤ) - 65536

/-- The standard base64 alphabet used by the browser's `btoa`/`atob`. -/
def b64Alphabet : List Char :=
  ['A', 'B', 'C', 'D', 'E', 'F', 'G', 'H', 'I', 'J', 'K', 'L', 'M',
   'N', 'O', 'P', 'Q', 'R', 'S', 'T', 'U', 'V', 'W', 'X', 'Y', 'Z',
   'a', 'b', 'c', 'd', 'e', 'f', 'g', 'h', 'i', 'j', 'k', 'l', 'm',
   'n', 'o', 'p', 'q', 'r', 's', 't', 'u', 'v', 'w', 'x', 'y', 'z',
   '0', '1', '2', '3', '4', '5', '6', '7', '8', '9', '+', '/']

/-- The base64 digit for a sextet value. -/
def b64Char (n : ℕ) : Char :=
  b64Alphabet.getD n '?'

/-- The sextet value of a base64 digit; `none` on a character outside the
alphabet (the browser's `atob` throws on such input). -/
def b64Val (c : Char) : Option ℕ :=
  let i := b64Alphabet.indexOf c
  if i < 64 then some i else none

/-- The browser's `btoa` on a byte sequence: groups of three bytes become
four base64 digits; a final group of one or two bytes is padded with
`=`. -/
def btoaChunks : List ℕ → List Char
  | [] => []
  | [b0] =>
      [b64Char (b0 / 4), b64Char (b0 % 4 * 16), '=', '=']
  | [b0, b1] =>
      [b64Char (b0 / 4), b64Char (b0 % 4 * 16 + b1 / 16),
       b64Char (b1 % 16 * 4), '=']
  | b0 :: b1 :: b2 :: rest =>
      b64Char (b0 / 4) :: b64Char (b0 % 4 * 16 + b1 / 16) ::
      b64Char (b1 % 16 * 4 + b2 / 64) :: b64Char (b2 % 64) ::
      btoaChunks rest

/-- The browser's `atob` on canonical padded base64 (the form `btoa`
produces): four digits become three bytes, with `=` padding marking a
final group of one or two bytes; `none` on any other input. -/
def atobChunks : List Char → Option (List ℕ)
  | [] => some []
  | c0 :: c1 :: c2 :: c3 :: rest =>
      if c2 = '=' then
        if c3 = '=' ∧ rest = [] then
          match b64Val c0, b64Val c1 with
          | some v0, some v1 => some [v0 * 4 + v1 / 16]
          | _, _ => none
        else none
      else if c3 = '=' then
        if rest = [] then
          match b64Val c0, b64Val c1, b64Val c2 with
          | some v0, some v1, some v2 =>
              some [v0 * 4 + v1 / 16, v1 % 16 * 16 + v2 / 4]
          | _, _, _ => none
        else none
      else
        match b64Val c0, b64Val c1, b64Val c2, b64Val c3,
              atobChunks rest with
        | some v0, some v1, some v2, some v3, some bs =>
            some ((v0 * 4 + v1 / 16) :: (v1 % 16 * 16 + v2 / 4) ::
                  (v2 % 4 * 64 + v3) :: bs)
        | _, _, _, _, _ => none
  | _ => none

/-- The result of `createBlob` (src/unnamed/part_000, lines 27-47): the
base64 text of the packed samples together with the mime tag. -/
structure GenBlob where
  data : List Char
  mimeType : String
deriving DecidableEq

/-- One sample of `createBlob`: the JavaScript assignment
`int16[i] = data[i] * 32768`, i.e. ToInt16 of the scaled sample. -/
def encodeSample (x : ℚ) : ℤ :=
  toInt16 (x * 32768)

/-- `createBlob` (src/unnamed/part_000, lines 27-47): scale each sample by
32768 and convert with ToInt16, expose the Int16Array's buffer as
little-endian bytes, base64-encode with `btoa`, and tag with the fixed
mime type. -/
def createBlob (data : List ℚ) : GenBlob :=
  { data := btoaChunks ((data.map encodeSample).flatMap int16ToBytesLE)
    mimeType := "audio/pcm;rate=16000" }

/-- The errors the decode path can raise. `invalidCharacter` is what the
browser's `atob` throws on input that is not valid base64; `rangeError`
is what `new Int16Array(buffer)` throws when the buffer's byte length is
not a multiple of 2. `malformedChunk` is the error name the specification
introduces for the odd-length case; the code never produces it (no such
error type exists in the source), and the constructor is present only so
that the specification's statement about it can be expressed and compared
with what the code does. -/
inductive DecodeError
  | invalidCharacter
  | rangeError
  | malformedChunk
deriving DecidableEq

deriving instance DecidableEq for Except

/-- Reinterpret an even-length byte list as little-endian signed 16-bit
values, as `new Int16Array(bytes.buffer)` does; a dangling final byte is
ignored (the caller rejects odd lengths before this runs). -/
def pairInt16s : List ℕ → List ℤ
  | b0 :: b1 :: rest => bytesLEToInt16 b0 b1 :: pairInt16s rest
  | _ => []

/-- `decodeAudioData` (src/unnamed/part_000, lines 49-69): decode the
base64 text with `atob`, view the bytes as little-endian signed 16-bit
samples (`new Int16Array(bytes.buffer)` throws a RangeError when the byte
length is odd), and rescale each sample to a float by dividing by
32768. -/
def decodeAudioData (base64 : List Char) : Except DecodeError (List ℚ) :=
  match atobChunks base64 with
  | none => .error .invalidCharacter
  | some bytes =>
      if bytes.length % 2 = 0 then
        .ok ((pairInt16s bytes).map fun i : ℤ => ((i : ℚ) / 32768))
      else .error .rangeError

theorem b64Val_b64Char {n : ℕ} (h : n < 64) : b64Val (b64Char n) = some n := by
  have key : ∀ m : Fin 64, b64Val (b64Char m.val) = some m.val := by decide
  exact key ⟨n, h⟩

theorem b64Char_ne_pad {n : ℕ} (h : n < 64) : b64Char n ≠ '=' := by
  have key : ∀ m : Fin 64, b64Char m.val ≠ '=' := by decide
  exact key ⟨n, h⟩

theorem atob_btoa (bs : List ℕ) (h : ∀ b ∈ bs, b < 256) :
    atobChunks (btoaChunks bs) = some bs := by
  induction bs using btoaChunks.induct with
  | case1 => rfl
  | case2 b0 =>
      have hb0 : b0 < 256 := h b0 (by simp)
      simp only [btoaChunks, atobChunks, and_self, if_true]
      rw [b64Val_b64Char (show b0 / 4 < 64 by omega),
        b64Val_b64Char (show b0 % 4 * 16 < 64 by omega)]
      simp only [Option.some.injEq, List.cons.injEq, and_true]
      omega
  | case3 b0 b1 =>
      have hb0 : b0 < 256 := h b0 (by simp)
      have hb1 : b1 < 256 := h b1 (by simp)
      simp only [btoaChunks, atobChunks, and_self, if_true]
      rw [if_neg (b64Char_ne_pad (show b1 % 16 * 4 < 64 by omega)),
        b64Val_b64Char (show b0 / 4 < 64 by omega),
        b64Val_b64Char (show b0 % 4 * 16 + b1 / 16 < 64 by omega),
        b64Val_b64Char (show b1 % 16 * 4 < 64 by omega)]
      simp only [Option.some.injEq, List.cons.injEq, and_true]
      constructor <;> omega
  | case4 b0 b1 b2 rest ih =>
      have hb0 : b0 < 256 := h b0 (by simp)
      have hb1 : b1 < 256 := h b1 (by simp)
      have hb2 : b2 < 256 := h b2 (by simp)
      have hrest : ∀ b ∈ rest, b < 256 := fun b hb => h b (by simp [hb])
      simp only [btoaChunks, atobChunks]
      rw [if_neg (b64Char_ne_pad (show b1 % 16 * 4 + b2 / 64 < 64 by omega)),
        if_neg (b64Char_ne_pad (show b2 % 64 < 64 by omega)),
        b64Val_b64Char (show b0 / 4 < 64 by omega),
        b64Val_b64Char (show b0 % 4 * 16 + b1 / 16 < 64 by omega),
        b64Val_b64Char (show b1 % 16 * 4 + b2 / 64 < 64 by omega),
        b64Val_b64Char (show b2 % 64 < 64 by omega),
        ih hrest]
      simp only [Option.some.injEq, List.cons.injEq, and_true]
      refine ⟨by omega, by omega, by omega⟩

theorem bytesLE_int16_inverse {i : ℤ} (h1 : -32768 ≤ i) (h2 : i < 32768) :
    bytesLEToInt16 ((i % 65536).toNat % 256) ((i % 65536).toNat / 256) = i := by
  simp only [bytesLEToInt16]
  split <;> omega

theorem pairInt16s_flatMap (l : List ℤ)
    (h : ∀ i ∈ l, -32768 ≤ i ∧ i < 32768) :
    pairInt16s (l.flatMap int16ToBytesLE) = l := by
  induction l with
  | nil => rfl
  | cons a rest ih =>
      have ha := h a (by simp)
      show bytesLEToInt16 ((a % 65536).toNat % 256) ((a % 65536).toNat / 256) ::
        pairInt16s (rest.flatMap int16ToBytesLE) = a :: rest
      rw [bytesLE_int16_inverse ha.1 ha.2, ih fun i hi => h i (by simp [hi])]

theorem flatMap_int16_length (l : List ℤ) :
    (l.flatMap int16ToBytesLE).length = 2 * l.length := by
  induction l with
  | nil => rfl
  | cons a rest ih =>
      show (rest.flatMap int16ToBytesLE).length + 1 + 1 = 2 * (a :: rest).length
      rw [ih, List.length_cons]
      omega

theorem flatMap_int16_lt (l : List ℤ) :
    ∀ b ∈ l.flatMap int16ToBytesLE, b < 256 := by
  induction l with
  | nil => intro b hb; simp at hb
  | cons a rest ih =>
      intro b hb
      replace hb : b ∈ (a % 65536).toNat % 256 :: (a % 65536).toNat / 256 ::
        rest.flatMap int16ToBytesLE := hb
      rcases List.mem_cons.mp hb with h1 | hb
      · omega
      rcases List.mem_cons.mp hb with h2 | h3
      · have : ((a % 65536).toNat) < 65536 := by omega
        omega
      · exact ih b h3

theorem truncRat_range {q : ℚ} (h1 : -32768 ≤ q) (h2 : q < 32768) :
    -32768 ≤ truncRat q ∧ truncRat q < 32768 := by
  by_cases hq : (0 : ℚ) ≤ q
  · rw [truncRat, if_pos hq]
    constructor
    · have : (0 : ℤ) ≤ ⌊q⌋ := Int.floor_nonneg.mpr hq
      omega
    · exact Int.floor_lt.mpr (by exact_mod_cast h2)
  · rw [truncRat, if_neg hq]
    constructor
    · have hcl := Int.le_ceil q
      have : (-32768 : ℚ) ≤ (⌈q⌉ : ℚ) := le_trans h1 hcl
      exact_mod_cast this
    · have : ⌈q⌉ ≤ 0 := Int.ceil_le.mpr (by exact_mod_cast le_of_not_le hq)
      omega

theorem abs_sub_truncRat_lt_one (q : ℚ) : |q - (truncRat q : ℚ)| < 1 := by
  by_cases hq : (0 : ℚ) ≤ q
  · rw [truncRat, if_pos hq, abs_of_nonneg (sub_nonneg.mpr (Int.floor_le q))]
    have := Int.sub_one_lt_floor q
    linarith
  · rw [truncRat, if_neg hq, abs_of_nonpos (sub_nonpos.mpr (Int.le_ceil q))]
    have := Int.ceil_lt_add_one q
    linarith

theorem wrap16_eq_self {i : ℤ} (h1 : -32768 ≤ i) (h2 : i < 32768) :
    wrap16 i = i := by
  simp only [wrap16]
  split <;> omega

theorem encodeSample_eq {x : ℚ} (h1 : -1 ≤ x) (h2 : x < 1) :
    encodeSample x = truncRat (x * 32768) ∧
    -32768 ≤ truncRat (x * 32768) ∧ truncRat (x * 32768) < 32768 := by
  have hlo : (-32768 : ℚ) ≤ x * 32768 := by linarith
  have hhi : x * 32768 < 32768 := by linarith
  obtain ⟨hl, hh⟩ := truncRat_range hlo hhi
  exact ⟨wrap16_eq_self hl hh, hl, hh⟩

theorem sample_roundtrip_bound {x : ℚ} (h1 : -1 ≤ x) (h2 : x < 1) :
    |x - ((encodeSample x : ℤ) : ℚ) / 32768| ≤ 1 / 32768 := by
  obtain ⟨heq, -, -⟩ := encodeSample_eq h1 h2
  rw [heq]
  have hb := abs_sub_truncRat_lt_one (x * 32768)
  have hrw : x - ((truncRat (x * 32768) : ℤ) : ℚ) / 32768 =
      (x * 32768 - (truncRat (x * 32768) : ℚ)) / 32768 := by ring
  rw [hrw, abs_div, abs_of_pos (show (0:ℚ) < 32768 by norm_num)]
  exact (div_le_div_iff_of_pos_right (show (0:ℚ) < 32768 by norm_num)).mpr hb.le

/-- The round-trip property of C1 at one sample sequence: decoding the
encoded blob succeeds and reproduces each sample to within one
quantization step, 1/32768. -/
def roundtripWithinStep (s : List ℚ) : Prop :=
  ∃ t, decodeAudioData (createBlob s).data = .ok t ∧ t.length = s.length ∧
    ∀ p ∈ s.zip t, |p.1 - p.2| ≤ 1 / 32768

theorem decodeAudioData_ok (base64 : List Char) (bytes : List ℕ)
    (h : atobChunks base64 = some bytes) (heven : bytes.length % 2 = 0) :
    decodeAudioData base64 =
      .ok ((pairInt16s bytes).map fun i : ℤ => ((i : ℚ) / 32768)) := by
  unfold decodeAudioData
  rw [h]
  exact if_pos heven

theorem mem_zip_map_self {α β : Type} (f : α → β) (l : List α) (p : α × β)
    (hp : p ∈ l.zip (l.map f)) : p.2 = f p.1 ∧ p.1 ∈ l := by
  induction l with
  | nil => simp at hp
  | cons a rest ih =>
      rw [List.map_cons, List.zip_cons_cons] at hp
      rcases List.mem_cons.mp hp with h1 | h2
      · subst h1
        exact ⟨rfl, by simp⟩
      · obtain ⟨he, hm⟩ := ih h2
        exact ⟨he, by simp [hm]⟩

/-- C1 (amended): for every sample sequence whose values lie in [-1, 1)
— the closed interval of the claim minus its right endpoint — decoding
the result of encoding differs from the input by at most one quantization
step, 1/32768, per sample. (At the value 1 itself the claim fails: see
the counterexample theorem; ToInt16 wraps 1 * 32768 = 32768 to -32768.) -/
theorem pcm_roundtrip_in_range (s : List ℚ)
    (h : ∀ x ∈ s, -1 ≤ x ∧ x < 1) : roundtripWithinStep s := by
  have hrange : ∀ i ∈ s.map encodeSample, -32768 ≤ i ∧ i < 32768 := by
    intro i hi
    obtain ⟨x, hx, rfl⟩ := List.mem_map.mp hi
    obtain ⟨heq, hlo, hhi⟩ := encodeSample_eq (h x hx).1 (h x hx).2
    rw [heq]
    exact ⟨hlo, hhi⟩
  have hlt : ∀ b ∈ (s.map encodeSample).flatMap int16ToBytesLE, b < 256 :=
    flatMap_int16_lt _
  have hdec : decodeAudioData (createBlob s).data =
      .ok (s.map fun x => ((encodeSample x : ℤ) : ℚ) / 32768) := by
    have hstep := decodeAudioData_ok (createBlob s).data
      ((s.map encodeSample).flatMap int16ToBytesLE)
      (atob_btoa _ hlt) (by rw [flatMap_int16_length]; omega)
    rw [hstep, pairInt16s_flatMap _ hrange, List.map_map]
    rfl
  refine ⟨s.map fun x => ((encodeSample x : ℤ) : ℚ) / 32768, hdec, by simp, ?_⟩
  intro p hp
  obtain ⟨he, hm⟩ := mem_zip_map_self _ _ _ hp
  rw [he]
  exact sample_roundtrip_bound (h p.1 hm).1 (h p.1 hm).2

/-- C1 (counterexample): the sample sequence [1] lies in [-1, 1], but the
round trip produces [-1], an error of 2 — far above one quantization
step. The claim as stated over the closed interval [-1, 1] is false. -/
theorem pcm_roundtrip_fails_at_one :
    (∀ x ∈ [(1 : ℚ)], -1 ≤ x ∧ x ≤ 1) ∧ ¬ roundtripWithinStep [(1 : ℚ)] := by
  constructor
  · intro x hx
    rw [List.mem_singleton] at hx
    subst hx
    exact ⟨by norm_num, le_refl 1⟩
  · rintro ⟨t, hdec, hlen, hbound⟩
    have h1 : encodeSample 1 = -32768 := by
      have hm : ((1 : ℚ) * 32768) = 32768 := by norm_num
      rw [encodeSample, hm]
      have ht : truncRat 32768 = 32768 := by
        rw [truncRat, if_pos (by norm_num)]
        norm_num
      rw [toInt16, ht]
      decide
    have hdec' : decodeAudioData (createBlob [(1 : ℚ)]).data = .ok [-1] := by
      have hblob : (createBlob [(1 : ℚ)]).data = ['A', 'I', 'A', '='] := by
        show btoaChunks (([(1 : ℚ)].map encodeSample).flatMap int16ToBytesLE) = _
        rw [show [(1 : ℚ)].map encodeSample = [-32768] by
          rw [List.map_singleton, h1]]
        decide
      rw [hblob, decodeAudioData_ok _ [0, 128] (by decide) (by decide)]
      rw [show pairInt16s [0, 128] = [-32768] by decide]
      norm_num
    rw [hdec'] at hdec
    have ht : t = [-1] := by
      cases hdec
      rfl
    subst ht
    have := hbound (1, -1) (by simp)
    norm_num at this

/-- C1 (witness for the amended theorem): the singleton sequence [1/2]
satisfies the hypothesis and round-trips within one quantization step. -/
theorem pcm_roundtrip_in_range_witness :
    (∀ x ∈ [(1 : ℚ)/2], -1 ≤ x ∧ x < 1) ∧ roundtripWithinStep [(1 : ℚ)/2] := by
  have h : ∀ x ∈ [(1 : ℚ)/2], -1 ≤ x ∧ x < 1 := by
    intro x hx
    rw [List.mem_singleton] at hx
    subst hx
    norm_num
  exact ⟨h, pcm_roundtrip_in_range [(1 : ℚ)/2] h⟩

/-- The four values of the `status` React state in LiveProfessor
(src/unnamed/part_000, line 14). -/
inductive Status
  | connecting
  | listening
  | speaking
  | error
deriving DecidableEq

/-- The mutable state of the LiveProfessor component: the `status` state,
the `isActive` flag, the refs holding the playback cursor
(`nextStartTimeRef`), the set of scheduled sources (`sourcesRef`,
modelled by its cardinality), and the resource refs (processor, media
stream, input and output audio contexts, session promise), each modelled
by whether the ref is non-null. `starts` logs every playback start time
passed to `source.start`, and `stoppedTotal` counts every `s.stop()`
call, so that scheduling order and interruption can be observed. -/
structure CState where
  status : Status
  isActive : Bool
  cursor : ℚ
  active : ℕ
  stoppedTotal : ℕ
  starts : List ℚ
  processor : Bool
  stream : Bool
  inputCtx : Bool
  outputCtx : Bool
  session : Bool
deriving DecidableEq

/-- The audio branch of the `onmessage` callback (src/unnamed/part_000,
lines 144-166), for a message carrying one audio chunk of duration `dur`
while the device clock reads `now`: when the output context is live, set
status to speaking, clamp the cursor to `max cursor now`, schedule the
decoded buffer at the cursor, advance the cursor by the buffer's
duration, and register the source in the active set. -/
def onAudioChunk (now dur : ℚ) (s : CState) : CState :=
  if s.outputCtx then
    { s with
      status := .speaking,
      cursor := max s.cursor now + dur,
      active := s.active + 1,
      starts := s.starts ++ [max s.cursor now] }
  else s

/-- The interruption branch of the `onmessage` callback
(src/unnamed/part_000, lines 168-174): stop every source in the active
set, clear the set, reset the cursor to 0 (zero-offset: a start time in
the past, so the next enqueue re-anchors at `now`), and set status to
listening. -/
def onInterrupted (s : CState) : CState :=
  { s with
    stoppedTotal := s.stoppedTotal + s.active,
    active := 0,
    cursor := 0,
    status := .listening }

/-- The `ended` listener of a playback source (src/unnamed/part_000,
lines 156-161): remove the source from the active set; when the set
becomes empty, set status to listening. -/
def onSourceEnded (s : CState) : CState :=
  { s with
    active := s.active - 1,
    status := if s.active - 1 = 0 then .listening else s.status }

/-- The `onopen` callback's synchronous state effects
(src/unnamed/part_000, lines 103-141): set status to listening, mark the
session active, and install the script processor (capture start). -/
def onOpen (s : CState) : CState :=
  { s with status := .listening, isActive := true, processor := true }

/-- `cleanup` (src/unnamed/part_000, lines 198-224): clear the active
flag; disconnect and null the processor (guarded on both the processor
and the input context being non-null); stop the media stream tracks and
null the ref; close and null the input context; stop every playback
source and clear the active set; close and null the output context; null
the session ref. The status and the cursor are left untouched. The
function is total: with the refs already null every guarded branch is
skipped, so a second call performs no operation and raises no error. -/
def cleanup (s : CState) : CState :=
  { s with
    isActive := false,
    processor := if s.processor && s.inputCtx then false else s.processor,
    stream := false,
    inputCtx := false,
    stoppedTotal := s.stoppedTotal + s.active,
    active := 0,
    outputCtx := false,
    session := false }

/-- The externally delivered events the component reacts to: the
transport's open callback, a server message (at device time `now`,
carrying an optional audio chunk of the given duration and an
interruption flag), the `ended` event of one playback source, the
transport's close and error callbacks, and the user closing the
component (which unmounts it and runs `cleanup`). -/
inductive Event
  | opened
  | message (now : ℚ) (audio : Option ℚ) (intr : Bool)
  | sourceEnded
  | remoteClose
  | remoteError
  | userClose

/-- One reaction of the component to one event, following the callbacks
in src/unnamed/part_000: `onmessage` handles the audio chunk first and
the interruption flag second; `onclose` runs `cleanup`; `onerror` sets an
error message, sets status to error and runs `cleanup`; unmount runs
`cleanup`. The second component counts how many times `cleanup` ran. -/
def step (s : CState) (e : Event) : CState × ℕ :=
  match e with
  | .opened => (onOpen s, 0)
  | .message now audio intr =>
      let s1 := match audio with
        | some dur => onAudioChunk now dur s
        | none => s
      (if intr then onInterrupted s1 else s1, 0)
  | .sourceEnded => (onSourceEnded s, 0)
  | .remoteClose => (cleanup s, 1)
  | .remoteError => (cleanup { s with status := .error }, 1)
  | .userClose => (cleanup s, 1)

/-- Run a sequence of events, accumulating the number of cleanup
invocations. -/
def run (s : CState) : List Event → CState × ℕ
  | [] => (s, 0)
  | e :: es =>
      let p := step s e
      let q := run p.1 es
      (q.1, p.2 + q.2)

/-- The component state right after `startSession` has acquired its
resources, before any callback fires: status connecting, no processor
yet, cursor at 0, no scheduled sources. -/
def initialState : CState :=
  { status := .connecting
    isActive := false
    cursor := 0
    active := 0
    stoppedTotal := 0
    starts := []
    processor := false
    stream := true
    inputCtx := true
    outputCtx := true
    session := true }

/-- C2's property at one run: three chunks of durations d1, d2, d3
handled at device-clock readings t0, n2, n3, with the scheduler in its
initial idle state, are scheduled exactly at t0, t0+d1, t0+d1+d2. -/
def gaplessStarts (t0 n2 n3 d1 d2 d3 : ℚ) : Prop :=
  (onAudioChunk n3 d3 (onAudioChunk n2 d2
    (onAudioChunk t0 d1 initialState))).starts = [t0, t0 + d1, t0 + d1 + d2]

/-- C2 (counterexample): the claim promises back-to-back start times
"regardless of when each buffer arrived", but when the second chunk is
handled only at device time 10, after the first one-second buffer (t0=0,
d1=1) has already finished, the code schedules it at max(cursor, now) =
10, not at t0+d1 = 1. The starts are [0, 10, 11], not [0, 1, 2]. -/
theorem gapless_fails_on_late_arrival : ¬ gaplessStarts 0 10 10 1 1 1 := by
  intro h
  rw [gaplessStarts] at h
  simp only [onAudioChunk, initialState, List.nil_append, List.cons_append,
    List.append_assoc] at h
  norm_num at h

/-- C2 (amended): with the scheduler idle (cursor at zero-offset) and
delivery keeping pace with playback — each chunk is handled no later
than the time the previous buffers finish — the three start times are
t0, t0+d1, t0+d1+d2, gapless and order-preserving, with t0 the device
time at the first enqueue. -/
theorem gapless_scheduling_paced (t0 n2 n3 d1 d2 d3 : ℚ)
    (h0 : 0 ≤ t0) (h2 : n2 ≤ t0 + d1) (h3 : n3 ≤ t0 + d1 + d2) :
    gaplessStarts t0 n2 n3 d1 d2 d3 := by
  rw [gaplessStarts]
  simp only [onAudioChunk, initialState, if_true]
  rw [max_eq_right h0]
  rw [max_eq_left h2]
  rw [max_eq_left h3]
  simp

/-- C2 (witness for the amended theorem): three unit-duration chunks all
handled at time 0 are scheduled at 0, 1, 2. -/
theorem gapless_scheduling_paced_witness :
    (0 : ℚ) ≤ 0 ∧ (0 : ℚ) ≤ 0 + 1 ∧ (0 : ℚ) ≤ 0 + 1 + 1 ∧
    gaplessStarts 0 0 0 1 1 1 :=
  ⟨le_refl 0, by norm_num, by norm_num,
   gapless_scheduling_paced 0 0 0 1 1 1 (le_refl 0) (by norm_num) (by norm_num)⟩

/-- C3: a message with the interruption flag stops every one of the
active buffers (stoppedTotal grows by the active count), empties the
active set, and resets the cursor to zero-offset; the next enqueue, at
any later device time `now2 ≥ 0`, is scheduled at `now2` itself — the
then-current device time — and not at a previously computed cursor. -/
theorem interrupt_resets_and_reanchors (s : CState) (nowI now2 dur : ℚ)
    (hnow : 0 ≤ now2) (hctx : s.outputCtx = true) :
    (step s (.message nowI none true)).1.stoppedTotal
        = s.stoppedTotal + s.active ∧
    (step s (.message nowI none true)).1.active = 0 ∧
    (step s (.message nowI none true)).1.cursor = 0 ∧
    (onAudioChunk now2 dur (step s (.message nowI none true)).1).starts
        = (step s (.message nowI none true)).1.starts ++ [now2] := by
  refine ⟨rfl, rfl, rfl, ?_⟩
  show (onAudioChunk now2 dur (onInterrupted s)).starts
      = (onInterrupted s).starts ++ [now2]
  rw [onAudioChunk, if_pos (show (onInterrupted s).outputCtx = true from hctx)]
  show (onInterrupted s).starts ++ [max (0 : ℚ) now2] = _
  rw [max_eq_right hnow]

/-- C3 (witness): interrupting from the freshly opened state and then
enqueuing at device time 1 anchors the new start at 1. -/
theorem interrupt_resets_and_reanchors_witness :
    (0 : ℚ) ≤ 1 ∧ initialState.outputCtx = true ∧
    (onAudioChunk 1 1 (step initialState (.message 0 none true)).1).starts
      = (step initialState (.message 0 none true)).1.starts ++ [1] :=
  ⟨by norm_num, rfl,
   (interrupt_resets_and_reanchors initialState 0 1 1 (by norm_num) rfl).2.2.2⟩

/-- C5: the full session scenario. From the initial connecting state, the
open callback yields listening; an audio chunk yields speaking; a second
chunk keeps the state speaking; after both sources fire their ended
events the active set drains and the state returns to listening; the
user's close then runs teardown exactly once over the whole trace. -/
theorem session_scenario (n1 n2 d1 d2 : ℚ) :
    initialState.status = .connecting ∧
    (run initialState [.opened]).1.status = .listening ∧
    (run initialState [.opened, .message n1 (some d1) false]).1.status
      = .speaking ∧
    (run initialState [.opened, .message n1 (some d1) false,
      .message n2 (some d2) false]).1.status = .speaking ∧
    (run initialState [.opened, .message n1 (some d1) false,
      .message n2 (some d2) false, .sourceEnded, .sourceEnded]).1.status
      = .listening ∧
    (run initialState [.opened, .message n1 (some d1) false,
      .message n2 (some d2) false, .sourceEnded, .sourceEnded,
      .userClose]).2 = 1 :=
  ⟨rfl, rfl, rfl, rfl, rfl, rfl⟩

/-- C6: the error callback, arriving in any state whatsoever, moves the
status to error and performs teardown: every active buffer is stopped,
the active set becomes empty, and cleanup runs (exactly once for this
event). -/
theorem error_from_any_state (s : CState) :
    (step s .remoteError).1.status = .error ∧
    (step s .remoteError).1.active = 0 ∧
    (step s .remoteError).1.stoppedTotal = s.stoppedTotal + s.active ∧
    (step s .remoteError).2 = 1 :=
  ⟨rfl, rfl, rfl, rfl⟩

/-- C7: teardown is idempotent — applied to any state, a second cleanup
reproduces exactly the state the first one left (and, the model being a
total function, it raises no error). All refs are already null, the
active set is already empty, so every guarded branch is skipped. -/
theorem cleanup_idempotent (s : CState) : cleanup (cleanup s) = cleanup s := by
  simp [cleanup]

/-- Whether an event carries the remote interruption signal. -/
def Event.isInterrupt : Event → Bool
  | .message _ _ intr => intr
  | _ => false

/-- Every audio duration carried by the event is nonnegative (buffer
durations are nonnegative in the Web Audio model). -/
def Event.durNonneg : Event → Prop
  | .message _ (some d) _ => 0 ≤ d
  | _ => True

/-- C8: across every step of the component, the schedule cursor is
monotonically non-decreasing — except on an explicit interruption, where
it resets to 0, the zero-offset that stands for the device's current
time (a start time in the past is clamped to `now` by the next
enqueue's max). -/
theorem cursor_monotone_except_interrupt (s : CState) (e : Event)
    (hd : e.durNonneg) :
    (e.isInterrupt = false → s.cursor ≤ (step s e).1.cursor) ∧
    (e.isInterrupt = true → (step s e).1.cursor = 0) := by
  cases e with
  | opened => exact ⟨fun _ => le_refl _, fun h => by simp [Event.isInterrupt] at h⟩
  | sourceEnded =>
      exact ⟨fun _ => le_refl _, fun h => by simp [Event.isInterrupt] at h⟩
  | remoteClose =>
      exact ⟨fun _ => le_refl _, fun h => by simp [Event.isInterrupt] at h⟩
  | remoteError =>
      exact ⟨fun _ => le_refl _, fun h => by simp [Event.isInterrupt] at h⟩
  | userClose =>
      exact ⟨fun _ => le_refl _, fun h => by simp [Event.isInterrupt] at h⟩
  | message now audio intr =>
      cases intr with
      | true =>
          refine ⟨fun h => by simp [Event.isInterrupt] at h, fun _ => ?_⟩
          cases audio <;> rfl
      | false =>
          refine ⟨fun _ => ?_, fun h => by simp [Event.isInterrupt] at h⟩
          cases audio with
          | none => exact le_refl _
          | some d =>
              have hd' : (0 : ℚ) ≤ d := hd
              show s.cursor ≤ (onAudioChunk now d s).cursor
              rw [onAudioChunk]
              by_cases hctx : s.outputCtx = true
              · rw [if_pos hctx]
                calc s.cursor ≤ max s.cursor now := le_max_left _ _
                  _ ≤ max s.cursor now + d := le_add_of_nonneg_right hd'
              · rw [if_neg hctx]

/-- C8 (witness): a chunk of duration 1 at device time 1 from the
initial state keeps the cursor non-decreasing. -/
theorem cursor_monotone_except_interrupt_witness :
    Event.durNonneg (.message 1 (some 1) false) ∧
    initialState.cursor
      ≤ (step initialState (.message 1 (some 1) false)).1.cursor :=
  ⟨by norm_num [Event.durNonneg],
   (cursor_monotone_except_interrupt initialState (.message 1 (some 1) false)
     (by norm_num [Event.durNonneg])).1 rfl⟩

/-- C4's property at one chunk: decoding fails with the specification's
distinguished `MalformedChunk` error. -/
def failsWithMalformedChunk (chunk : List Char) : Prop :=
  decodeAudioData chunk = .error .malformedChunk

/-- C4 (counterexample): the chunk "AA==" decodes to the single byte
[0], whose length is odd, and the code does fail on it — but with the
platform's generic RangeError thrown by the Int16Array construction, not
with a distinguished MalformedChunk error: no such error type exists
anywhere in the source. -/
theorem decode_odd_not_malformedChunk :
    atobChunks ['A', 'A', '=', '='] = some [0] ∧
    decodeAudioData ['A', 'A', '=', '='] = .error .rangeError ∧
    ¬ failsWithMalformedChunk ['A', 'A', '=', '='] := by
  refine ⟨by decide, by decide, ?_⟩
  intro h
  rw [failsWithMalformedChunk] at h
  rw [show decodeAudioData ['A', 'A', '=', '='] = .error .rangeError
    from by decide] at h
  exact absurd (Except.error.inj h) (by decide)

/-- C4 (amended): every chunk whose decoded byte length is odd makes
decode fail — but with the platform's generic RangeError raised by
`new Int16Array(bytes.buffer)`, not with a distinguished MalformedChunk
error, which the code never defines or produces. -/
theorem decode_odd_fails_rangeError (chunk : List Char) (bytes : List ℕ)
    (h : atobChunks chunk = some bytes) (hodd : bytes.length % 2 = 1) :
    decodeAudioData chunk = .error .rangeError := by
  unfold decodeAudioData
  rw [h]
  exact if_neg (by omega)

/-- C4 (witness for the amended theorem): the chunk "AA==" decodes to one
byte and decode fails with the RangeError. -/
theorem decode_odd_fails_rangeError_witness :
    atobChunks ['A', 'A', '=', '='] = some [0] ∧ [0].length % 2 = 1 ∧
    decodeAudioData ['A', 'A', '=', '='] = .error .rangeError :=
  ⟨by decide, by decide,
   decode_odd_fails_rangeError ['A', 'A', '=', '='] [0] (by decide) (by decide)⟩

/-- The observable actions of `startSession` (src/unnamed/part_000,
lines 71-196) and of its `onopen` callback, in the order the code
performs them: create the output AudioContext, create the input
AudioContext, await getUserMedia, call ai.live.connect, change the React
status, send one contextual attachment, send the synthetic ready
trigger, and wire the script processor into the capture graph. -/
inductive Action
  | openOutputDevice
  | openInputDevice
  | acquireStream
  | openRemoteSession
  | statusChange (st : Status)
  | sendAttachment (i : ℕ)
  | sendReady
  | startCapture
deriving DecidableEq

/-- The action trace of one `startSession` call with `numFiles` supplied
attachments. On the success path the `onopen` callback first sets the
status to listening, then schedules the attachment sends on the session
promise (a microtask, which runs only after the synchronous remainder of
the callback), then wires up the script processor; so the trace is:
status connecting, open both devices, acquire the stream, open the
session, status listening, capture start, then the attachment sends
followed by the single ready trigger. When getUserMedia fails the catch
block sets the status to error after the two contexts were created. -/
def startSessionTrace (micOk : Bool) (numFiles : ℕ) : List Action :=
  if micOk then
    [.statusChange .connecting, .openOutputDevice, .openInputDevice,
     .acquireStream, .openRemoteSession, .statusChange .listening,
     .startCapture] ++
    ((List.range numFiles).map Action.sendAttachment) ++ [.sendReady]
  else
    [.statusChange .connecting, .openOutputDevice, .openInputDevice,
     .statusChange .error]

/-- Whether an action is a status change that leaves `connecting`. -/
def leavesConnecting : Action → Bool
  | .statusChange .connecting => false
  | .statusChange _ => true
  | _ => false

/-- C9's property over one trace: at every point where the status leaves
`connecting`, all the required startup actions already lie in the strict
prefix before that point. -/
def startupOrderingClaimAt (t req : List Action) : Prop :=
  ∀ k : Fin t.length, leavesConnecting (t.get k) = true →
    ∀ a ∈ req, a ∈ t.take k.val

/-- The actions C9 requires to precede any departure from connecting,
for `numFiles` attachments. -/
def requiredBefore (numFiles : ℕ) : List Action :=
  [.openOutputDevice, .openInputDevice, .acquireStream, .openRemoteSession,
   .startCapture] ++
  ((List.range numFiles).map Action.sendAttachment) ++ [.sendReady]

/-- C9 (counterexample): on the successful startup with one attachment,
the status changes to listening at index 5 of the trace, before the
capture pipeline is wired and before the attachment and the ready signal
are sent — those happen later in the same open handling. (The failure
path gives a second counterexample: the status leaves connecting for
error with no stream acquired and no session opened.) -/
theorem startup_ordering_claim_false :
    ¬ startupOrderingClaimAt (startSessionTrace true 1) (requiredBefore 1) := by
  intro h
  have h5 := h ⟨5, by decide⟩ (by decide) Action.sendReady (by decide)
  exact absurd h5 (by decide)

/-- C9 (amended): on the successful startup path, by the time the status
leaves connecting (for listening, at index 5) the controller has already
opened the output and input audio devices, acquired the capture stream
and opened the remote session — in that order; the capture start comes
immediately after the status change, and the attachments are all sent
afterwards within the open handling, followed by the ready signal, which
is sent exactly once and last, before any conversation event. -/
theorem startup_ordering_success_path (n : ℕ) :
    (startSessionTrace true n).take 7 =
      [.statusChange .connecting, .openOutputDevice, .openInputDevice,
       .acquireStream, .openRemoteSession, .statusChange .listening,
       .startCapture] ∧
    (∀ i, i < n → Action.sendAttachment i ∈ startSessionTrace true n) ∧
    (startSessionTrace true n).count .sendReady = 1 ∧
    (startSessionTrace true n).getLast? = some .sendReady := by
  have ht : startSessionTrace true n =
      ([.statusChange .connecting, .openOutputDevice, .openInputDevice,
        .acquireStream, .openRemoteSession, .statusChange .listening,
        .startCapture] ++
       ((List.range n).map Action.sendAttachment)) ++ [.sendReady] := by
    rw [startSessionTrace, if_pos rfl]
  refine ⟨rfl, ?_, ?_, ?_⟩
  · intro i hi
    rw [ht]
    simp only [List.mem_append, List.mem_map, List.mem_range]
    exact Or.inl (Or.inr ⟨i, hi, rfl⟩)
  · rw [ht]
    have hz : ((List.range n).map Action.sendAttachment).count
        Action.sendReady = 0 :=
      List.count_eq_zero.mpr (by simp)
    rw [List.count_append, List.count_append, hz]
    decide
  · rw [ht, List.getLast?_concat]

/-- C9 (witness for the amended theorem): with one attachment, the
attachment with index 0 is sent during startup. -/
theorem startup_ordering_success_path_witness :
    Action.sendAttachment 0 ∈ startSessionTrace true 1 :=
  (startup_ordering_success_path 1).2.1 0 (by norm_num)

/-- One part of a generation response, as read by `generateLectureImage`
(src/services/gemini.ts, lines 132-158): only its optional inlineData
payload matters. -/
structure GenPart where
  inlineData : Option String
deriving DecidableEq

/-- The outcome `generateLectureImage` observes of the remote call: the
parts of the first candidate (an absent candidate list is the empty
list, via `response.candidates?.[0]?.content?.parts || []`), or a thrown
error caught by the surrounding try/catch. -/
inductive GenResponse
  | ok (parts : List GenPart)
  | failed
deriving DecidableEq

/-- The placeholder returned when the response carries no image part. -/
def imageFailedUrl : String :=
  "https://picsum.photos/800/450?text=Image+Generation+Failed"

/-- The placeholder returned when the remote call throws. -/
def imageUnavailableUrl : String :=
  "https://picsum.photos/800/450?text=Image+Unavailable"

/-- The for-loop of `generateLectureImage`: return a data URL for the
first part carrying inlineData, if any. -/
def firstInlineImage : List GenPart → Option String
  | [] => none
  | p :: rest =>
      match p.inlineData with
      | some d => some ("data:image/png;base64," ++ d)
      | none => firstInlineImage rest

/-- `generateLectureImage` (src/services/gemini.ts, lines 132-158) as a
function of the observed response: the first inline image as a data URL,
the fixed failure placeholder when no part carries one, and the fixed
unavailable placeholder when the call threw (the try/catch makes the
function total — it never propagates an exception). -/
def generateLectureImage : GenResponse → String
  | .ok parts => (firstInlineImage parts).getD imageFailedUrl
  | .failed => imageUnavailableUrl

/-- C10: for every observable outcome of the remote call,
generateLectureImage returns a usable URL string: either a data URL
carrying the generated image bytes, or one of the two fixed placeholder
URLs; it never throws. -/
theorem generateLectureImage_always_url (r : GenResponse) :
    (∃ d, generateLectureImage r = "data:image/png;base64," ++ d) ∨
    generateLectureImage r = imageFailedUrl ∨
    generateLectureImage r = imageUnavailableUrl := by
  cases r with
  | failed => exact Or.inr (Or.inr rfl)
  | ok parts =>
      induction parts with
      | nil => exact Or.inr (Or.inl rfl)
      | cons p rest ih =>
          cases hp : p.inlineData with
          | some d =>
              exact Or.inl ⟨d, by
                simp [generateLectureImage, firstInlineImage, hp]⟩
          | none =>
              simpa [generateLectureImage, firstInlineImage, hp] using ih

end Anfamita
